import Mathlib

/-!
# Checkpoints (src/checkpoints.cpp)

A shallow embedding of the `Checkpoints` namespace: the checkpoint table, the
block verifier `CheckBlock`, the estimator `GuessVerificationProgress`, the
estimate `GetTotalBlocksEstimate` and the locator `GetLastCheckpoint`.

Conventions of the embedding.
* `std::map<K, V>` is the list of its entries in iteration order, which is
  strictly increasing in the key (`StdMap`).
* `GetBoolArg("-checkpoints", true)` and `time(NULL)` read the environment;
  they are the explicit arguments `fCheckpoints` and `nNow`.
* A `CBlockIndex*` is an `Option CBlockIndex`, with `none` for `NULL`.
* `double` arithmetic is exact arithmetic over `ℚ`. The one operation of the
  source that has no rational value is the final division when the divisor is
  zero (the source then yields a NaN or an infinity); `fdiv` returns `none`
  there.
* `int`, `int64` values are `Int`: the source does no arithmetic on heights,
  and the `int64` subtractions are taken where they do not overflow.
-/

namespace Checkpoints

/-- A 256-bit block hash; the source only compares hashes. -/
abbrev uint256 := Nat

/-- The container `std::map<K, V>`: the entries in iteration order, strictly
increasing in the key, so that no key occurs twice. -/
structure StdMap (K V : Type) [LT K] where
  entries : List (K × V)
  sorted : entries.Pairwise (fun a b => a.1 < b.1)

namespace StdMap

variable {K V : Type} [LT K] [DecidableEq K]

/-- The member `find(k)`: the entry with key `k`, or `none` for `end()`. -/
def find (m : StdMap K V) (k : K) : Option (K × V) :=
  m.entries.find? (fun e => decide (e.1 = k))

/-- The entry `*rbegin()`: the last entry in iteration order; `none` is the
undefined dereference on an empty map. -/
def rbegin (m : StdMap K V) : Option (K × V) :=
  m.entries.getLast?

end StdMap

/-- The map type `typedef std::map<int, uint256> MapCheckpoints`. -/
abbrev MapCheckpoints := StdMap Int uint256

/-- The constant `fSigcheckVerificationFactor = 5.0`. -/
def fSigcheckVerificationFactor : ℚ := 5

/-- The record `struct CCheckpointData`. -/
structure CCheckpointData where
  mapCheckpoints : MapCheckpoints
  nTimeLastCheckpoint : Int
  nTransactionsLastCheckpoint : Int
  fTransactionsPerDay : ℚ

/-- Modelled from the spec: the class `CBlockIndex` of main.h, of which the
source reads the cumulative transaction count `nChainTx` and the block
timestamp `nTime`, both integers (spec, section 6). -/
structure CBlockIndex where
  nChainTx : Int
  nTime : Int
deriving DecidableEq

/-- The compiled-in table `mapCheckpoints`: the genesis entry alone, the other
entries being commented out in the source. -/
def mapCheckpoints : MapCheckpoints where
  entries := [(0, 0x563ac70cc2642286ad8463559011621fc4debe7ab2525900f74d079fc73cb5f2)]
  sorted := List.pairwise_singleton _ _

/-- The compiled-in `data`. -/
def data : CCheckpointData where
  mapCheckpoints := mapCheckpoints
  nTimeLastCheckpoint := 1489231307
  nTransactionsLastCheckpoint := 23062
  fTransactionsPerDay := 576

/-- The function `CheckBlock(nHeight, hash)`, over the checkpoint data `d` that
`Checkpoints()` returns and the value `fCheckpoints` of the `-checkpoints`
option. -/
def CheckBlock (fCheckpoints : Bool) (d : CCheckpointData) (nHeight : Int)
    (hash : uint256) : Bool :=
  if !fCheckpoints then true
  else
    match d.mapCheckpoints.find nHeight with
    | none => true
    | some i => decide (hash = i.2)

/-- The final division of the estimator: no value when the divisor is zero. -/
def fdiv (a b : ℚ) : Option ℚ :=
  if b = 0 then none else some (a / b)

/-- The first branch of `GuessVerificationProgress` (the index is at or before
the last checkpoint): the pair `(fWorkBefore, fWorkAfter)`. -/
def workUpToCheckpoint (d : CCheckpointData) (nNow : Int) (pindex : CBlockIndex) :
    ℚ × ℚ :=
  let nCheapBefore : ℚ := (pindex.nChainTx : ℚ)
  let nCheapAfter : ℚ := ((d.nTransactionsLastCheckpoint - pindex.nChainTx : Int) : ℚ)
  let nExpensiveAfter : ℚ :=
    ((nNow - d.nTimeLastCheckpoint : Int) : ℚ) / 86400 * d.fTransactionsPerDay
  (nCheapBefore, nCheapAfter + nExpensiveAfter * fSigcheckVerificationFactor)

/-- The second branch of `GuessVerificationProgress` (the index is past the
last checkpoint): the pair `(fWorkBefore, fWorkAfter)`. -/
def workPastCheckpoint (d : CCheckpointData) (nNow : Int) (pindex : CBlockIndex) :
    ℚ × ℚ :=
  let nCheapBefore : ℚ := (d.nTransactionsLastCheckpoint : ℚ)
  let nExpensiveBefore : ℚ := ((pindex.nChainTx - d.nTransactionsLastCheckpoint : Int) : ℚ)
  let nExpensiveAfter : ℚ :=
    ((nNow - pindex.nTime : Int) : ℚ) / 86400 * d.fTransactionsPerDay
  (nCheapBefore + nExpensiveBefore * fSigcheckVerificationFactor,
   nExpensiveAfter * fSigcheckVerificationFactor)

/-- The function `GuessVerificationProgress(pindex)`, over the checkpoint data
`d` and the clock value `nNow = time(NULL)`. -/
def GuessVerificationProgress (d : CCheckpointData) (nNow : Int)
    (pindex : Option CBlockIndex) : Option ℚ :=
  match pindex with
  | none => some 0
  | some p =>
    let w : ℚ × ℚ :=
      if p.nChainTx ≤ d.nTransactionsLastCheckpoint then workUpToCheckpoint d nNow p
      else workPastCheckpoint d nNow p
    fdiv w.1 (w.1 + w.2)

/-- The function `GetTotalBlocksEstimate()`; `none` is the undefined
dereference of `rbegin()` on an empty table. -/
def GetTotalBlocksEstimate (fCheckpoints : Bool) (d : CCheckpointData) : Option Int :=
  if !fCheckpoints then some 0
  else d.mapCheckpoints.rbegin.map (fun i => i.1)

/-- The loop of `GetLastCheckpoint` over the entries still to visit, given in
the order `BOOST_REVERSE_FOREACH` visits them. -/
def lastCheckpointLoop (mapBlockIndex : StdMap uint256 (Option CBlockIndex)) :
    List (Int × uint256) → Option CBlockIndex
  | [] => none
  | i :: rest =>
    match mapBlockIndex.find i.2 with
    | some t => t.2
    | none => lastCheckpointLoop mapBlockIndex rest

/-- The function `GetLastCheckpoint(mapBlockIndex)`. -/
def GetLastCheckpoint (fCheckpoints : Bool) (d : CCheckpointData)
    (mapBlockIndex : StdMap uint256 (Option CBlockIndex)) : Option CBlockIndex :=
  if !fCheckpoints then none
  else lastCheckpointLoop mapBlockIndex d.mapCheckpoints.entries.reverse

/-! ## Example data of the spec's scenarios -/

/-- The table `{0: H0, 100: H100}` of the spec's scenarios, with `H0 = 7` and
`H100 = 9`. -/
def tableEx : MapCheckpoints where
  entries := [(0, 7), (100, 9)]
  sorted := by simp

/-- The scenario data: `tableEx`, `lastCheckpointTxCount = 500`,
`lastCheckpointTime = 1000000`, `txPerDay = 576`. -/
def dataEx : CCheckpointData where
  mapCheckpoints := tableEx
  nTimeLastCheckpoint := 1000000
  nTransactionsLastCheckpoint := 500
  fTransactionsPerDay := 576

/-- A block index holding only the hash `H0 = 7`. -/
def indexEx : StdMap uint256 (Option CBlockIndex) where
  entries := [(7, some ⟨1, 999000⟩)]
  sorted := List.pairwise_singleton _ _

/-- A block index of an unrelated network: its only key is no hash of
`tableEx`. -/
def indexOther : StdMap uint256 (Option CBlockIndex) where
  entries := [(11, some ⟨3, 999500⟩)]
  sorted := List.pairwise_singleton _ _

/-! ## General facts about `StdMap` -/

namespace StdMap

theorem find_eq_none_of_forall_ne {K V : Type} [Preorder K] [DecidableEq K]
    (m : StdMap K V) (k : K)
    (h : ∀ e ∈ m.entries, e.1 ≠ k) : m.find k = none := by
  unfold find
  rw [List.find?_eq_none]
  intro e he
  simpa using h e he

theorem find_mem {K V : Type} [Preorder K] [DecidableEq K]
    (m : StdMap K V) (k : K) (e : K × V) (h : m.find k = some e) :
    e ∈ m.entries ∧ e.1 = k := by
  unfold find at h
  refine ⟨List.mem_of_find?_eq_some h, ?_⟩
  simpa using List.find?_some h

theorem key_unique {K V : Type} [Preorder K]
    (m : StdMap K V) (a b : K × V) (ha : a ∈ m.entries)
    (hb : b ∈ m.entries) (hk : a.1 = b.1) : a = b := by
  have hs := m.sorted
  generalize m.entries = l at ha hb hs
  induction l with
  | nil => cases ha
  | cons x xs ih =>
    rw [List.pairwise_cons] at hs
    rcases List.mem_cons.mp ha with rfl | ha'
    · rcases List.mem_cons.mp hb with rfl | hb'
      · rfl
      · exact absurd hk (ne_of_lt (hs.1 b hb'))
    · rcases List.mem_cons.mp hb with rfl | hb'
      · exact absurd hk.symm (ne_of_lt (hs.1 a ha'))
      · exact ih ha' hb' hs.2

theorem find_eq_some_of_mem {K V : Type} [Preorder K] [DecidableEq K]
    (m : StdMap K V) (e : K × V) (h : e ∈ m.entries) :
    m.find e.1 = some e := by
  cases hf : m.find e.1 with
  | none =>
    unfold find at hf
    rw [List.find?_eq_none] at hf
    have := hf e h
    simp at this
  | some e' =>
    obtain ⟨hm, hk⟩ := m.find_mem e.1 e' hf
    rw [m.key_unique e' e hm h hk]

theorem rbegin_greatest {K V : Type} [Preorder K]
    (m : StdMap K V) (x : K × V) (h : m.rbegin = some x) :
    x ∈ m.entries ∧ ∀ e ∈ m.entries, e.1 ≤ x.1 := by
  unfold rbegin at h
  obtain ⟨ys, hys⟩ := List.getLast?_eq_some_iff.mp h
  have hs := m.sorted
  rw [hys] at hs ⊢
  refine ⟨by simp, ?_⟩
  intro e he
  rcases List.mem_append.mp he with he' | he'
  · exact le_of_lt ((List.pairwise_append.mp hs).2.2 e he' x (by simp))
  · have : e = x := by simpa using he'
    rw [this]

end StdMap

/-! ## The checkpoint verifier -/

/-- C1: with enforcement enabled, at a height `h` where the table stores the
hash `s`, `CheckBlock(h, x)` is true exactly when `x = s`. -/
theorem CheckBlock_present_iff (d : CCheckpointData) (h : Int) (s x : uint256)
    (hs : (h, s) ∈ d.mapCheckpoints.entries) :
    CheckBlock true d h x = true ↔ x = s := by
  have hf : d.mapCheckpoints.find h = some (h, s) :=
    d.mapCheckpoints.find_eq_some_of_mem (h, s) hs
  simp [CheckBlock, hf]

theorem CheckBlock_present_iff_witness :
    (100, 9) ∈ dataEx.mapCheckpoints.entries ∧
      (CheckBlock true dataEx 100 9 = true ↔ (9 : uint256) = 9) ∧
      (CheckBlock true dataEx 100 8 = true ↔ (8 : uint256) = 9) :=
  ⟨by simp [dataEx, tableEx],
   CheckBlock_present_iff dataEx 100 9 9 (by simp [dataEx, tableEx]),
   CheckBlock_present_iff dataEx 100 9 8 (by simp [dataEx, tableEx])⟩

/-- C2: at a height that is not a key of the table, `CheckBlock` is true for
every hash, whether enforcement is enabled or not. -/
theorem CheckBlock_absent (fCheckpoints : Bool) (d : CCheckpointData) (h : Int)
    (x : uint256) (hk : ∀ e ∈ d.mapCheckpoints.entries, e.1 ≠ h) :
    CheckBlock fCheckpoints d h x = true := by
  have hf : d.mapCheckpoints.find h = none :=
    d.mapCheckpoints.find_eq_none_of_forall_ne h hk
  simp [CheckBlock, hf]

theorem CheckBlock_absent_witness :
    (∀ e ∈ dataEx.mapCheckpoints.entries, e.1 ≠ 50) ∧
      CheckBlock true dataEx 50 12345 = true :=
  ⟨by simp [dataEx, tableEx],
   CheckBlock_absent true dataEx 50 12345 (by simp [dataEx, tableEx])⟩

/-- C3: with enforcement disabled, whatever the table holds, `CheckBlock` is
true for every height and hash, `GetTotalBlocksEstimate` is 0 and
`GetLastCheckpoint` is absent for every block index. -/
theorem enforcement_disabled (d : CCheckpointData) :
    (∀ (h : Int) (x : uint256), CheckBlock false d h x = true) ∧
      GetTotalBlocksEstimate false d = some 0 ∧
      ∀ mapBlockIndex : StdMap uint256 (Option CBlockIndex),
        GetLastCheckpoint false d mapBlockIndex = none := by
  refine ⟨?_, ?_, ?_⟩
  · intro h x
    simp [CheckBlock]
  · simp [GetTotalBlocksEstimate]
  · intro mapBlockIndex
    simp [GetLastCheckpoint]

/-! ## The last-checkpoint locator and the total-blocks estimate -/

theorem lastCheckpointLoop_none (idx : StdMap uint256 (Option CBlockIndex))
    (l : List (Int × uint256))
    (hno : ∀ e ∈ l, ∀ t ∈ idx.entries, t.1 ≠ e.2) :
    lastCheckpointLoop idx l = none := by
  induction l with
  | nil => rfl
  | cons i rest ih =>
    have hf : idx.find i.2 = none :=
      idx.find_eq_none_of_forall_ne i.2 (hno i (List.mem_cons_self _ _))
    simp only [lastCheckpointLoop, hf]
    exact ih (fun e he => hno e (List.mem_cons_of_mem _ he))

theorem lastCheckpointLoop_highest (idx : StdMap uint256 (Option CBlockIndex))
    (l : List (Int × uint256)) (h : Int) (s : uint256) (v : Option CBlockIndex)
    (hdesc : l.Pairwise (fun a b => b.1 < a.1))
    (hs : (h, s) ∈ l) (hv : (s, v) ∈ idx.entries)
    (hmax : ∀ e ∈ l, (∃ t ∈ idx.entries, t.1 = e.2) → e.1 ≤ h) :
    lastCheckpointLoop idx l = v := by
  induction l with
  | nil => cases hs
  | cons i rest ih =>
    rw [List.pairwise_cons] at hdesc
    rcases List.mem_cons.mp hs with hi | hrest
    · have hf : idx.find i.2 = some (s, v) := by
        rw [← hi]
        exact idx.find_eq_some_of_mem (s, v) hv
      simp [lastCheckpointLoop, hf]
    · have hlt : h < i.1 := hdesc.1 (h, s) hrest
      have hf : idx.find i.2 = none := by
        apply idx.find_eq_none_of_forall_ne
        intro t ht hk
        have := hmax i (List.mem_cons_self _ _) ⟨t, ht, hk⟩
        omega
      simp only [lastCheckpointLoop, hf]
      exact ih hdesc.2 hrest (fun e he => hmax e (List.mem_cons_of_mem _ he))

/-- C4: with enforcement enabled, when `(h, s)` is the highest-height
checkpoint whose hash is a key of the block index, `GetLastCheckpoint` returns
the node `v` that the index stores under `s`. -/
theorem GetLastCheckpoint_highest (d : CCheckpointData)
    (mapBlockIndex : StdMap uint256 (Option CBlockIndex)) (h : Int) (s : uint256)
    (v : Option CBlockIndex)
    (hs : (h, s) ∈ d.mapCheckpoints.entries) (hv : (s, v) ∈ mapBlockIndex.entries)
    (hmax : ∀ e ∈ d.mapCheckpoints.entries,
      (∃ t ∈ mapBlockIndex.entries, t.1 = e.2) → e.1 ≤ h) :
    GetLastCheckpoint true d mapBlockIndex = v := by
  have hdesc : d.mapCheckpoints.entries.reverse.Pairwise (fun a b => b.1 < a.1) :=
    List.pairwise_reverse.mpr d.mapCheckpoints.sorted
  simp only [GetLastCheckpoint, Bool.not_true, Bool.false_eq_true, if_false]
  exact lastCheckpointLoop_highest mapBlockIndex _ h s v hdesc
    (List.mem_reverse.mpr hs) hv (fun e he => hmax e (List.mem_reverse.mp he))

/-- The locator scenario of the spec: for the table `{0: H0, 100: H100}` and an index holding
only `H0`, the locator returns the node of `H0`. -/
theorem GetLastCheckpoint_highest_witness :
    (0, 7) ∈ dataEx.mapCheckpoints.entries ∧
      (7, some (⟨1, 999000⟩ : CBlockIndex)) ∈ indexEx.entries ∧
      GetLastCheckpoint true dataEx indexEx = some ⟨1, 999000⟩ :=
  ⟨by simp [dataEx, tableEx], by simp [indexEx],
   GetLastCheckpoint_highest dataEx indexEx 0 7 (some ⟨1, 999000⟩)
     (by simp [dataEx, tableEx]) (by simp [indexEx])
     (by simp [dataEx, tableEx, indexEx])⟩

/-- C5: with enforcement enabled, when no checkpoint hash of the table is a key
of the block index, `GetLastCheckpoint` returns absent. -/
theorem GetLastCheckpoint_absent (d : CCheckpointData)
    (mapBlockIndex : StdMap uint256 (Option CBlockIndex))
    (hno : ∀ e ∈ d.mapCheckpoints.entries, ∀ t ∈ mapBlockIndex.entries, t.1 ≠ e.2) :
    GetLastCheckpoint true d mapBlockIndex = none := by
  simp only [GetLastCheckpoint, Bool.not_true, Bool.false_eq_true, if_false]
  exact lastCheckpointLoop_none mapBlockIndex _
    (fun e he => hno e (List.mem_reverse.mp he))

theorem GetLastCheckpoint_absent_witness :
    (∀ e ∈ dataEx.mapCheckpoints.entries, ∀ t ∈ indexOther.entries, t.1 ≠ e.2) ∧
      GetLastCheckpoint true dataEx indexOther = none :=
  ⟨by simp [dataEx, tableEx, indexOther],
   GetLastCheckpoint_absent dataEx indexOther (by simp [dataEx, tableEx, indexOther])⟩

/-- C6: with enforcement enabled and a non-empty table,
`GetTotalBlocksEstimate` returns a height that is a key of the table and is
at least every key of the table. -/
theorem GetTotalBlocksEstimate_largest (d : CCheckpointData)
    (hne : d.mapCheckpoints.entries ≠ []) :
    ∃ h : Int, GetTotalBlocksEstimate true d = some h ∧
      (∃ e ∈ d.mapCheckpoints.entries, e.1 = h) ∧
      ∀ e ∈ d.mapCheckpoints.entries, e.1 ≤ h := by
  cases hr : d.mapCheckpoints.rbegin with
  | none =>
    unfold StdMap.rbegin at hr
    exact absurd (List.getLast?_eq_none_iff.mp hr) hne
  | some x =>
    obtain ⟨hx, hmax⟩ := d.mapCheckpoints.rbegin_greatest x hr
    exact ⟨x.1, by simp [GetTotalBlocksEstimate, hr], ⟨x, hx, rfl⟩, hmax⟩

theorem GetTotalBlocksEstimate_largest_witness :
    dataEx.mapCheckpoints.entries ≠ [] ∧
      GetTotalBlocksEstimate true dataEx = some 100 ∧
      ∃ h : Int, GetTotalBlocksEstimate true dataEx = some h ∧
        (∃ e ∈ dataEx.mapCheckpoints.entries, e.1 = h) ∧
        ∀ e ∈ dataEx.mapCheckpoints.entries, e.1 ≤ h :=
  ⟨by simp [dataEx, tableEx],
   by simp [GetTotalBlocksEstimate, StdMap.rbegin, dataEx, tableEx],
   GetTotalBlocksEstimate_largest dataEx (by simp [dataEx, tableEx])⟩

/-! ## The progress estimator -/

theorem fdiv_of_ne_zero (a b : ℚ) (hb : b ≠ 0) : fdiv a b = some (a / b) := by
  simp [fdiv, hb]

theorem expensiveAfter_nonneg (nNow t : Int) (r : ℚ) (ht : t ≤ nNow) (hr : 0 ≤ r) :
    0 ≤ ((nNow - t : Int) : ℚ) / 86400 * r := by
  have h0 : (0 : ℚ) ≤ ((nNow - t : Int) : ℚ) := by
    exact_mod_cast Int.sub_nonneg_of_le ht
  exact mul_nonneg (div_nonneg h0 (by norm_num)) hr

theorem expensiveAfter_pos (nNow t : Int) (r : ℚ) (ht : t < nNow) (hr : 0 < r) :
    0 < ((nNow - t : Int) : ℚ) / 86400 * r := by
  have h0 : (0 : ℚ) < ((nNow - t : Int) : ℚ) := by
    exact_mod_cast Int.sub_pos_of_lt ht
  exact mul_pos (div_pos h0 (by norm_num)) hr

/-- The estimator on a node at or before the last checkpoint, with the sum
`fWorkBefore + fWorkAfter` simplified. -/
theorem GuessVerificationProgress_upTo (d : CCheckpointData) (nNow : Int) (p : CBlockIndex)
    (hb : p.nChainTx ≤ d.nTransactionsLastCheckpoint) :
    GuessVerificationProgress d nNow (some p) =
      fdiv (p.nChainTx : ℚ)
        ((d.nTransactionsLastCheckpoint : ℚ) +
          ((nNow - d.nTimeLastCheckpoint : Int) : ℚ) / 86400 * d.fTransactionsPerDay * 5) := by
  simp only [GuessVerificationProgress, hb, if_true, workUpToCheckpoint,
    fSigcheckVerificationFactor]
  congr 1
  rw [Int.cast_sub]
  ring

/-- The estimator on a node past the last checkpoint. -/
theorem GuessVerificationProgress_past (d : CCheckpointData) (nNow : Int) (p : CBlockIndex)
    (hb : d.nTransactionsLastCheckpoint < p.nChainTx) :
    GuessVerificationProgress d nNow (some p) =
      fdiv ((d.nTransactionsLastCheckpoint : ℚ) +
          ((p.nChainTx : ℚ) - (d.nTransactionsLastCheckpoint : ℚ)) * 5)
        ((d.nTransactionsLastCheckpoint : ℚ) +
          ((p.nChainTx : ℚ) - (d.nTransactionsLastCheckpoint : ℚ)) * 5 +
          ((nNow - p.nTime : Int) : ℚ) / 86400 * d.fTransactionsPerDay * 5) := by
  simp only [GuessVerificationProgress, not_le.mpr hb, if_false, workPastCheckpoint,
    fSigcheckVerificationFactor]
  rw [Int.cast_sub]

/-- The unit-interval bound for arbitrary checkpoint data: when `0 ≤ txCount`,
`0 ≤ lastCheckpointTxCount`, `0 ≤ txPerDay`, `lastCheckpointTime ≤ now`,
`node.time ≤ now`, and `txCount`, `lastCheckpointTxCount` and
`(now - lastCheckpointTime) * txPerDay` are not all zero, the estimator has a
value and the value lies in `[0, 1]`. -/
theorem unit_interval_of_divisor_ne_zero (d : CCheckpointData) (nNow : Int)
    (p : CBlockIndex)
    (htx : 0 ≤ p.nChainTx) (hlast : 0 ≤ d.nTransactionsLastCheckpoint)
    (hrate : 0 ≤ d.fTransactionsPerDay)
    (hcp : d.nTimeLastCheckpoint ≤ nNow) (hnode : p.nTime ≤ nNow)
    (hnz : 0 < p.nChainTx ∨ 0 < d.nTransactionsLastCheckpoint ∨
      (d.nTimeLastCheckpoint < nNow ∧ 0 < d.fTransactionsPerDay)) :
    ∃ q : ℚ, GuessVerificationProgress d nNow (some p) = some q ∧ 0 ≤ q ∧ q ≤ 1 := by
  have htxQ : (0 : ℚ) ≤ (p.nChainTx : ℚ) := by exact_mod_cast htx
  have hlastQ : (0 : ℚ) ≤ (d.nTransactionsLastCheckpoint : ℚ) := by exact_mod_cast hlast
  by_cases hb : p.nChainTx ≤ d.nTransactionsLastCheckpoint
  · have hbQ : (p.nChainTx : ℚ) ≤ (d.nTransactionsLastCheckpoint : ℚ) := by exact_mod_cast hb
    have hE := expensiveAfter_nonneg nNow d.nTimeLastCheckpoint d.fTransactionsPerDay hcp hrate
    have hpos : (0 : ℚ) < (d.nTransactionsLastCheckpoint : ℚ) +
        ((nNow - d.nTimeLastCheckpoint : Int) : ℚ) / 86400 * d.fTransactionsPerDay * 5 := by
      rcases hnz with h1 | h2 | ⟨h3, h4⟩
      · have h1Q : (0 : ℚ) < (p.nChainTx : ℚ) := by exact_mod_cast h1
        linarith
      · have h2Q : (0 : ℚ) < (d.nTransactionsLastCheckpoint : ℚ) := by exact_mod_cast h2
        linarith
      · have hE2 := expensiveAfter_pos nNow d.nTimeLastCheckpoint d.fTransactionsPerDay h3 h4
        linarith
    rw [GuessVerificationProgress_upTo d nNow p hb, fdiv_of_ne_zero _ _ (ne_of_gt hpos)]
    refine ⟨_, rfl, div_nonneg htxQ (le_of_lt hpos), ?_⟩
    rw [div_le_one hpos]
    linarith
  · have hb' : d.nTransactionsLastCheckpoint < p.nChainTx := not_le.mp hb
    have hbQ : (d.nTransactionsLastCheckpoint : ℚ) < (p.nChainTx : ℚ) := by
      exact_mod_cast hb'
    have hE := expensiveAfter_nonneg nNow p.nTime d.fTransactionsPerDay hnode hrate
    have hW : (0 : ℚ) < (d.nTransactionsLastCheckpoint : ℚ) +
        ((p.nChainTx : ℚ) - (d.nTransactionsLastCheckpoint : ℚ)) * 5 := by
      linarith
    have hpos : (0 : ℚ) < (d.nTransactionsLastCheckpoint : ℚ) +
        ((p.nChainTx : ℚ) - (d.nTransactionsLastCheckpoint : ℚ)) * 5 +
        ((nNow - p.nTime : Int) : ℚ) / 86400 * d.fTransactionsPerDay * 5 := by
      linarith
    rw [GuessVerificationProgress_past d nNow p hb', fdiv_of_ne_zero _ _ (ne_of_gt hpos)]
    refine ⟨_, rfl, div_nonneg (le_of_lt hW) (le_of_lt hpos), ?_⟩
    rw [div_le_one hpos]
    linarith

/-- C7: under normal operation (`0 ≤ node.txCount`,
`0 ≤ lastCheckpointTxCount`, `0 ≤ txPerDay`, `lastCheckpointTime ≤ now` and
`node.time ≤ now`), for every non-null node and every clock value `now`, the
estimator over the compiled-in checkpoint data has a value and the value lies
in the closed interval `[0, 1]`. -/
theorem GuessVerificationProgress_unit_interval (nNow : Int) (p : CBlockIndex)
    (htx : 0 ≤ p.nChainTx) (hlast : 0 ≤ data.nTransactionsLastCheckpoint)
    (hrate : 0 ≤ data.fTransactionsPerDay)
    (hcp : data.nTimeLastCheckpoint ≤ nNow) (hnode : p.nTime ≤ nNow) :
    ∃ q : ℚ, GuessVerificationProgress data nNow (some p) = some q ∧ 0 ≤ q ∧ q ≤ 1 :=
  unit_interval_of_divisor_ne_zero data nNow p htx hlast hrate hcp hnode
    (Or.inr (Or.inl (by decide)))

/-- The bound at the node with no transaction stamped at the checkpoint time,
seen at the checkpoint time, and at a node past the checkpoint. -/
theorem GuessVerificationProgress_unit_interval_witness :
    (∃ q : ℚ, GuessVerificationProgress data 1489231307 (some ⟨0, 1489231307⟩) = some q ∧
        0 ≤ q ∧ q ≤ 1) ∧
      ∃ q : ℚ, GuessVerificationProgress data 1489404107 (some ⟨30000, 1489317707⟩) = some q ∧
        0 ≤ q ∧ q ≤ 1 :=
  ⟨GuessVerificationProgress_unit_interval 1489231307 ⟨0, 1489231307⟩
      (by decide) (by decide) (by norm_num [data]) (by decide) (by decide),
   GuessVerificationProgress_unit_interval 1489404107 ⟨30000, 1489317707⟩
      (by decide) (by decide) (by norm_num [data]) (by decide) (by decide)⟩

theorem expensiveAfter_anti (nNow t1 t2 : Int) (r : ℚ) (ht : t1 ≤ t2) (hr : 0 ≤ r) :
    ((nNow - t2 : Int) : ℚ) / 86400 * r ≤ ((nNow - t1 : Int) : ℚ) / 86400 * r := by
  have h0 : ((nNow - t2 : Int) : ℚ) ≤ ((nNow - t1 : Int) : ℚ) := by
    exact_mod_cast Int.sub_le_sub_left ht nNow
  exact mul_le_mul_of_nonneg_right (div_le_div_of_nonneg_right h0 (by norm_num)) hr

theorem fdiv_ne_none (a b : ℚ) (h : fdiv a b ≠ none) : b ≠ 0 := by
  intro hb
  exact h (by simp [fdiv, hb])

/-- C8 as stated fails across the case split: with `lastCheckpointTxCount = 100`
and `now = lastCheckpointTime`, the node A with `txCount = 100` has progress 1,
and the node B with `txCount = 101` and the same timestamp, one day before
`now`, has progress `7 / 199`. -/
theorem GuessVerificationProgress_mono_counterexample :
    (⟨100, 1913600⟩ : CBlockIndex).nChainTx < (⟨101, 1913600⟩ : CBlockIndex).nChainTx ∧
      (⟨100, 1913600⟩ : CBlockIndex).nTime ≤ (⟨101, 1913600⟩ : CBlockIndex).nTime ∧
      (⟨101, 1913600⟩ : CBlockIndex).nTime ≤ 2000000 ∧
      (0 : ℚ) ≤ (⟨tableEx, 2000000, 100, 576⟩ : CCheckpointData).fTransactionsPerDay ∧
      (⟨tableEx, 2000000, 100, 576⟩ : CCheckpointData).nTimeLastCheckpoint ≤ 2000000 ∧
      GuessVerificationProgress ⟨tableEx, 2000000, 100, 576⟩ 2000000
        (some ⟨100, 1913600⟩) = some 1 ∧
      GuessVerificationProgress ⟨tableEx, 2000000, 100, 576⟩ 2000000
        (some ⟨101, 1913600⟩) = some (7 / 199) ∧
      ¬ ((1 : ℚ) ≤ 7 / 199) := by
  refine ⟨by decide, by decide, by decide, by norm_num, by decide, ?_, ?_, by norm_num⟩
  · rw [GuessVerificationProgress_upTo _ _ _ (by decide)]
    norm_num [fdiv]
  · rw [GuessVerificationProgress_past _ _ _ (by decide)]
    norm_num [fdiv]

/-- C8, amended: holding `now` fixed, for nodes A and B with
`A.txCount < B.txCount`, `A.time ≤ B.time ≤ now`, `0 ≤ txPerDay`,
`lastCheckpointTime ≤ now`, `0 ≤ lastCheckpointTxCount`, a non-zero divisor
for A and, when A is at or before the checkpoint and B is past it,
`lastCheckpointTime ≤ B.time`, both estimates have a value and
`progress(A) ≤ progress(B)`. -/
theorem GuessVerificationProgress_mono (d : CCheckpointData) (nNow : Int)
    (A B : CBlockIndex)
    (htx : A.nChainTx < B.nChainTx) (hAB : A.nTime ≤ B.nTime) (hB : B.nTime ≤ nNow)
    (hrate : 0 ≤ d.fTransactionsPerDay) (hcp : d.nTimeLastCheckpoint ≤ nNow)
    (hlast : 0 ≤ d.nTransactionsLastCheckpoint)
    (hA : GuessVerificationProgress d nNow (some A) ≠ none)
    (hcross : A.nChainTx ≤ d.nTransactionsLastCheckpoint →
      d.nTransactionsLastCheckpoint < B.nChainTx → d.nTimeLastCheckpoint ≤ B.nTime) :
    ∃ x y : ℚ, GuessVerificationProgress d nNow (some A) = some x ∧
      GuessVerificationProgress d nNow (some B) = some y ∧ x ≤ y := by
  have htxQ : (A.nChainTx : ℚ) < (B.nChainTx : ℚ) := by exact_mod_cast htx
  have hlastQ : (0 : ℚ) ≤ (d.nTransactionsLastCheckpoint : ℚ) := by exact_mod_cast hlast
  have hEL := expensiveAfter_nonneg nNow d.nTimeLastCheckpoint d.fTransactionsPerDay hcp hrate
  have hEB := expensiveAfter_nonneg nNow B.nTime d.fTransactionsPerDay hB hrate
  have hEAB := expensiveAfter_anti nNow A.nTime B.nTime d.fTransactionsPerDay hAB hrate
  by_cases ha : A.nChainTx ≤ d.nTransactionsLastCheckpoint
  · have haQ : (A.nChainTx : ℚ) ≤ (d.nTransactionsLastCheckpoint : ℚ) := by exact_mod_cast ha
    rw [GuessVerificationProgress_upTo d nNow A ha] at hA ⊢
    have hne := fdiv_ne_none _ _ hA
    have hD : (0 : ℚ) < (d.nTransactionsLastCheckpoint : ℚ) +
        ((nNow - d.nTimeLastCheckpoint : Int) : ℚ) / 86400 * d.fTransactionsPerDay * 5 :=
      lt_of_le_of_ne (by linarith) (Ne.symm hne)
    rw [fdiv_of_ne_zero _ _ hne]
    by_cases hb : B.nChainTx ≤ d.nTransactionsLastCheckpoint
    · rw [GuessVerificationProgress_upTo d nNow B hb, fdiv_of_ne_zero _ _ hne]
      exact ⟨_, _, rfl, rfl, div_le_div_of_nonneg_right (le_of_lt htxQ) (le_of_lt hD)⟩
    · have hb' : d.nTransactionsLastCheckpoint < B.nChainTx := not_le.mp hb
      have hbQ : (d.nTransactionsLastCheckpoint : ℚ) < (B.nChainTx : ℚ) := by
        exact_mod_cast hb'
      have hELB := expensiveAfter_anti nNow d.nTimeLastCheckpoint B.nTime
        d.fTransactionsPerDay (hcross ha hb') hrate
      have hW : (0 : ℚ) < (d.nTransactionsLastCheckpoint : ℚ) +
          ((B.nChainTx : ℚ) - (d.nTransactionsLastCheckpoint : ℚ)) * 5 := by linarith
      have hDB : (0 : ℚ) < (d.nTransactionsLastCheckpoint : ℚ) +
          ((B.nChainTx : ℚ) - (d.nTransactionsLastCheckpoint : ℚ)) * 5 +
          ((nNow - B.nTime : Int) : ℚ) / 86400 * d.fTransactionsPerDay * 5 := by linarith
      rw [GuessVerificationProgress_past d nNow B hb', fdiv_of_ne_zero _ _ (ne_of_gt hDB)]
      refine ⟨_, _, rfl, rfl, ?_⟩
      rw [div_le_div_iff₀ hD hDB]
      generalize ((nNow - d.nTimeLastCheckpoint : Int) : ℚ) / 86400 * d.fTransactionsPerDay = EL
        at hEL hELB hD ⊢
      generalize ((nNow - B.nTime : Int) : ℚ) / 86400 * d.fTransactionsPerDay = EB
        at hEB hELB hDB ⊢
      generalize (d.nTransactionsLastCheckpoint : ℚ) = L at hlastQ haQ hbQ hW hD hDB ⊢
      generalize (A.nChainTx : ℚ) = a at haQ ⊢
      generalize (B.nChainTx : ℚ) = b at hbQ hW hDB ⊢
      nlinarith [mul_nonneg (sub_nonneg.mpr haQ) (le_of_lt hDB),
        mul_nonneg hlastQ (sub_nonneg.mpr hELB),
        mul_nonneg (sub_nonneg.mpr (le_of_lt hbQ)) hEL]
  · have ha' : d.nTransactionsLastCheckpoint < A.nChainTx := not_le.mp ha
    have hb' : d.nTransactionsLastCheckpoint < B.nChainTx := lt_trans ha' htx
    have haQ : (d.nTransactionsLastCheckpoint : ℚ) < (A.nChainTx : ℚ) := by
      exact_mod_cast ha'
    have hEA : (0 : ℚ) ≤ ((nNow - A.nTime : Int) : ℚ) / 86400 * d.fTransactionsPerDay :=
      le_trans hEB hEAB
    have hWA : (0 : ℚ) < (d.nTransactionsLastCheckpoint : ℚ) +
        ((A.nChainTx : ℚ) - (d.nTransactionsLastCheckpoint : ℚ)) * 5 := by linarith
    have hDA : (0 : ℚ) < (d.nTransactionsLastCheckpoint : ℚ) +
        ((A.nChainTx : ℚ) - (d.nTransactionsLastCheckpoint : ℚ)) * 5 +
        ((nNow - A.nTime : Int) : ℚ) / 86400 * d.fTransactionsPerDay * 5 := by linarith
    have hDB : (0 : ℚ) < (d.nTransactionsLastCheckpoint : ℚ) +
        ((B.nChainTx : ℚ) - (d.nTransactionsLastCheckpoint : ℚ)) * 5 +
        ((nNow - B.nTime : Int) : ℚ) / 86400 * d.fTransactionsPerDay * 5 := by linarith
    rw [GuessVerificationProgress_past d nNow A ha', fdiv_of_ne_zero _ _ (ne_of_gt hDA),
      GuessVerificationProgress_past d nNow B hb', fdiv_of_ne_zero _ _ (ne_of_gt hDB)]
    refine ⟨_, _, rfl, rfl, ?_⟩
    rw [div_le_div_iff₀ hDA hDB]
    generalize ((nNow - A.nTime : Int) : ℚ) / 86400 * d.fTransactionsPerDay = EA
      at hEA hEAB hDA ⊢
    generalize ((nNow - B.nTime : Int) : ℚ) / 86400 * d.fTransactionsPerDay = EB
      at hEB hEAB hDB ⊢
    generalize (d.nTransactionsLastCheckpoint : ℚ) = L at hlastQ haQ hWA hDA hDB ⊢
    generalize (A.nChainTx : ℚ) = a at haQ htxQ hWA hDA ⊢
    generalize (B.nChainTx : ℚ) = b at htxQ hDB ⊢
    nlinarith [mul_nonneg (le_of_lt hWA) (sub_nonneg.mpr hEAB),
      mul_nonneg (sub_nonneg.mpr (le_of_lt htxQ)) hEA]

/-- Monotonicity across the case split in the scenario data: a node at the
checkpoint count and a node past it, both stamped at or after the checkpoint
time. -/
theorem GuessVerificationProgress_mono_witness :
    ∃ x y : ℚ, GuessVerificationProgress dataEx 1200000 (some ⟨500, 1000000⟩) = some x ∧
      GuessVerificationProgress dataEx 1200000 (some ⟨600, 1100000⟩) = some y ∧ x ≤ y :=
  GuessVerificationProgress_mono dataEx 1200000 ⟨500, 1000000⟩ ⟨600, 1100000⟩
    (by decide) (by decide) (by decide) (by norm_num [dataEx]) (by decide) (by decide)
    (by
      rw [GuessVerificationProgress_upTo _ _ _ (by decide)]
      norm_num [fdiv, dataEx]
      exact Option.some_ne_none _)
    (fun _ _ => by decide)

/-- C9 as stated fails: with the compiled-in data, a node with
`txCount = lastCheckpointTxCount` stamped one day after the checkpoint, seen
two days after the checkpoint, gets `11531 / 14411` from the branch the code
takes, and the formula of the other branch gives `11531 / 12971`. -/
theorem GuessVerificationProgress_boundary_counterexample :
    (⟨23062, 1489317707⟩ : CBlockIndex).nChainTx = data.nTransactionsLastCheckpoint ∧
      GuessVerificationProgress data 1489404107 (some ⟨23062, 1489317707⟩) =
        some (11531 / 14411) ∧
      fdiv (workPastCheckpoint data 1489404107 ⟨23062, 1489317707⟩).1
        ((workPastCheckpoint data 1489404107 ⟨23062, 1489317707⟩).1 +
          (workPastCheckpoint data 1489404107 ⟨23062, 1489317707⟩).2) =
        some (11531 / 12971) ∧
      (11531 / 14411 : ℚ) ≠ 11531 / 12971 := by
  refine ⟨by decide, ?_, ?_, by norm_num⟩
  · rw [GuessVerificationProgress_upTo _ _ _ (by decide)]
    norm_num [fdiv, data]
  · norm_num [fdiv, workPastCheckpoint, fSigcheckVerificationFactor, data]

/-- C9, amended: for a node with `txCount = lastCheckpointTxCount` and
`time = lastCheckpointTime` and for every `now`, the value the estimator
computes (by its at/before-checkpoint branch) equals the value the formula of
the past-checkpoint branch gives for the same node and `now`. -/
theorem GuessVerificationProgress_boundary (d : CCheckpointData) (nNow : Int)
    (p : CBlockIndex) (htx : p.nChainTx = d.nTransactionsLastCheckpoint)
    (htime : p.nTime = d.nTimeLastCheckpoint) :
    GuessVerificationProgress d nNow (some p) =
      fdiv (workPastCheckpoint d nNow p).1
        ((workPastCheckpoint d nNow p).1 + (workPastCheckpoint d nNow p).2) := by
  simp only [GuessVerificationProgress, workUpToCheckpoint, workPastCheckpoint, htx, htime,
    le_refl, if_true, sub_self, Int.cast_zero, zero_mul, add_zero, zero_add]

theorem GuessVerificationProgress_boundary_witness :
    GuessVerificationProgress data 1489404107 (some ⟨23062, 1489231307⟩) =
      fdiv (workPastCheckpoint data 1489404107 ⟨23062, 1489231307⟩).1
        ((workPastCheckpoint data 1489404107 ⟨23062, 1489231307⟩).1 +
          (workPastCheckpoint data 1489404107 ⟨23062, 1489231307⟩).2) :=
  GuessVerificationProgress_boundary data 1489404107 ⟨23062, 1489231307⟩ rfl rfl

/-- C10: on the null node the estimator returns exactly 0, for every clock
value and every checkpoint data. -/
theorem GuessVerificationProgress_null (d : CCheckpointData) (nNow : Int) :
    GuessVerificationProgress d nNow none = some 0 := rfl

/-! ## The two branches of the estimator in closed form -/

/-- C11: for a node with `txCount ≤ lastCheckpointTxCount` and every `now`, the
estimator is `txCount / (lastCheckpointTxCount + 5 * ((now -
lastCheckpointTime) / 86400) * txPerDay)`; the divisor `fWorkBefore +
fWorkAfter` is that expression, in which the node does not occur, and the
result is the same for every timestamp of the node. -/
theorem GuessVerificationProgress_upTo_formula (d : CCheckpointData) (nNow : Int)
    (p : CBlockIndex) (hb : p.nChainTx ≤ d.nTransactionsLastCheckpoint) :
    GuessVerificationProgress d nNow (some p) =
        fdiv (p.nChainTx : ℚ)
          ((d.nTransactionsLastCheckpoint : ℚ) +
            5 * (((nNow : ℚ) - (d.nTimeLastCheckpoint : ℚ)) / 86400) *
              d.fTransactionsPerDay) ∧
      (workUpToCheckpoint d nNow p).1 + (workUpToCheckpoint d nNow p).2 =
        (d.nTransactionsLastCheckpoint : ℚ) +
          5 * (((nNow : ℚ) - (d.nTimeLastCheckpoint : ℚ)) / 86400) *
            d.fTransactionsPerDay ∧
      ∀ t : Int, GuessVerificationProgress d nNow (some ⟨p.nChainTx, t⟩) =
        GuessVerificationProgress d nNow (some p) := by
  have hsum : (workUpToCheckpoint d nNow p).1 + (workUpToCheckpoint d nNow p).2 =
      (d.nTransactionsLastCheckpoint : ℚ) +
        5 * (((nNow : ℚ) - (d.nTimeLastCheckpoint : ℚ)) / 86400) *
          d.fTransactionsPerDay := by
    simp only [workUpToCheckpoint, fSigcheckVerificationFactor, Int.cast_sub]
    ring
  refine ⟨?_, hsum, ?_⟩
  · simp only [GuessVerificationProgress, hb, if_true]
    rw [hsum]
    rfl
  · intro t
    rw [GuessVerificationProgress_upTo d nNow p hb,
      GuessVerificationProgress_upTo d nNow ⟨p.nChainTx, t⟩ hb]

theorem GuessVerificationProgress_upTo_formula_witness :
    GuessVerificationProgress data 1489404107 (some ⟨20000, 1489000000⟩) =
        fdiv ((20000 : Int) : ℚ)
          ((data.nTransactionsLastCheckpoint : ℚ) +
            5 * ((((1489404107 : Int) : ℚ) - (data.nTimeLastCheckpoint : ℚ)) / 86400) *
              data.fTransactionsPerDay) ∧
      (workUpToCheckpoint data 1489404107 ⟨20000, 1489000000⟩).1 +
          (workUpToCheckpoint data 1489404107 ⟨20000, 1489000000⟩).2 =
        (data.nTransactionsLastCheckpoint : ℚ) +
          5 * ((((1489404107 : Int) : ℚ) - (data.nTimeLastCheckpoint : ℚ)) / 86400) *
            data.fTransactionsPerDay ∧
      ∀ t : Int, GuessVerificationProgress data 1489404107 (some ⟨20000, t⟩) =
        GuessVerificationProgress data 1489404107 (some ⟨20000, 1489000000⟩) :=
  GuessVerificationProgress_upTo_formula data 1489404107 ⟨20000, 1489000000⟩ (by decide)

/-- C12: for a node with `txCount > lastCheckpointTxCount` and every `now`, the
estimator is `W / (W + 5 * ((now - node.time) / 86400) * txPerDay)` with
`W = lastCheckpointTxCount + 5 * (txCount - lastCheckpointTxCount)`, and the
result is the same for every value `T` of `lastCheckpointTime`. -/
theorem GuessVerificationProgress_past_formula (d : CCheckpointData) (nNow : Int)
    (p : CBlockIndex) (T : Int) (hb : d.nTransactionsLastCheckpoint < p.nChainTx) :
    GuessVerificationProgress d nNow (some p) =
        fdiv ((d.nTransactionsLastCheckpoint : ℚ) +
            5 * ((p.nChainTx : ℚ) - (d.nTransactionsLastCheckpoint : ℚ)))
          ((d.nTransactionsLastCheckpoint : ℚ) +
              5 * ((p.nChainTx : ℚ) - (d.nTransactionsLastCheckpoint : ℚ)) +
            5 * (((nNow : ℚ) - (p.nTime : ℚ)) / 86400) * d.fTransactionsPerDay) ∧
      GuessVerificationProgress
          ⟨d.mapCheckpoints, T, d.nTransactionsLastCheckpoint, d.fTransactionsPerDay⟩
          nNow (some p) =
        GuessVerificationProgress d nNow (some p) := by
  constructor
  · rw [GuessVerificationProgress_past d nNow p hb, Int.cast_sub]
    congr 1 <;> ring
  · rw [GuessVerificationProgress_past d nNow p hb,
      GuessVerificationProgress_past
        ⟨d.mapCheckpoints, T, d.nTransactionsLastCheckpoint, d.fTransactionsPerDay⟩
        nNow p hb]

theorem GuessVerificationProgress_past_formula_witness :
    GuessVerificationProgress data 1489404107 (some ⟨30000, 1489317707⟩) =
        fdiv ((data.nTransactionsLastCheckpoint : ℚ) +
            5 * (((30000 : Int) : ℚ) - (data.nTransactionsLastCheckpoint : ℚ)))
          ((data.nTransactionsLastCheckpoint : ℚ) +
              5 * (((30000 : Int) : ℚ) - (data.nTransactionsLastCheckpoint : ℚ)) +
            5 * ((((1489404107 : Int) : ℚ) - ((1489317707 : Int) : ℚ)) / 86400) *
              data.fTransactionsPerDay) ∧
      GuessVerificationProgress
          ⟨data.mapCheckpoints, 0, data.nTransactionsLastCheckpoint,
            data.fTransactionsPerDay⟩
          1489404107 (some ⟨30000, 1489317707⟩) =
        GuessVerificationProgress data 1489404107 (some ⟨30000, 1489317707⟩) :=
  GuessVerificationProgress_past_formula data 1489404107 ⟨30000, 1489317707⟩ 0 (by decide)

/-- C13: the estimate is not clamped. With the compiled-in data, where
`txPerDay = 576 > 0`, the node with `txCount = 23063` stamped one day after
`now` has a progress above 1. -/
theorem GuessVerificationProgress_exceeds_one :
    0 < data.fTransactionsPerDay ∧
      ∃ (nNow : Int) (p : CBlockIndex), nNow < p.nTime ∧
        ∃ q : ℚ, GuessVerificationProgress data nNow (some p) = some q ∧ 1 < q := by
  refine ⟨by norm_num [data], 1489404107, ⟨23063, 1489490507⟩, by decide,
    23067 / 20187, ?_, by norm_num⟩
  rw [GuessVerificationProgress_past _ _ _ (by decide)]
  norm_num [fdiv, data]

/-! ## The estimator as the clock advances -/

theorem expensiveAfter_strictMono (now1 now2 t : Int) (r : ℚ) (hlt : now1 < now2)
    (hr : 0 < r) :
    ((now1 - t : Int) : ℚ) / 86400 * r < ((now2 - t : Int) : ℚ) / 86400 * r := by
  have h0 : ((now1 - t : Int) : ℚ) < ((now2 - t : Int) : ℚ) := by
    exact_mod_cast Int.sub_lt_sub_right hlt t
  exact mul_lt_mul_of_pos_right (div_lt_div_of_pos_right h0 (by norm_num)) hr

/-- C14: for a node with `txCount > 0`, with `txPerDay > 0` and two clock
values `now1 < now2` at or after the reference time of the node's branch
(`lastCheckpointTime` at or before the checkpoint, `node.time` past it), the
estimator has a value at both and the value at `now2` is strictly smaller. -/
theorem GuessVerificationProgress_decreases_with_time (d : CCheckpointData)
    (p : CBlockIndex) (now1 now2 : Int)
    (htx : 0 < p.nChainTx) (hrate : 0 < d.fTransactionsPerDay) (hlt : now1 < now2)
    (href : (if p.nChainTx ≤ d.nTransactionsLastCheckpoint then d.nTimeLastCheckpoint
      else p.nTime) ≤ now1) :
    ∃ x y : ℚ, GuessVerificationProgress d now1 (some p) = some x ∧
      GuessVerificationProgress d now2 (some p) = some y ∧ y < x := by
  have htxQ : (0 : ℚ) < (p.nChainTx : ℚ) := by exact_mod_cast htx
  by_cases hb : p.nChainTx ≤ d.nTransactionsLastCheckpoint
  · rw [if_pos hb] at href
    have hbQ : (p.nChainTx : ℚ) ≤ (d.nTransactionsLastCheckpoint : ℚ) := by exact_mod_cast hb
    have hE1 := expensiveAfter_nonneg now1 d.nTimeLastCheckpoint d.fTransactionsPerDay
      href (le_of_lt hrate)
    have hE12 := expensiveAfter_strictMono now1 now2 d.nTimeLastCheckpoint
      d.fTransactionsPerDay hlt hrate
    have hD1 : (0 : ℚ) < (d.nTransactionsLastCheckpoint : ℚ) +
        ((now1 - d.nTimeLastCheckpoint : Int) : ℚ) / 86400 * d.fTransactionsPerDay * 5 := by
      linarith
    have hD2 : (0 : ℚ) < (d.nTransactionsLastCheckpoint : ℚ) +
        ((now2 - d.nTimeLastCheckpoint : Int) : ℚ) / 86400 * d.fTransactionsPerDay * 5 := by
      linarith
    rw [GuessVerificationProgress_upTo d now1 p hb, fdiv_of_ne_zero _ _ (ne_of_gt hD1),
      GuessVerificationProgress_upTo d now2 p hb, fdiv_of_ne_zero _ _ (ne_of_gt hD2)]
    refine ⟨_, _, rfl, rfl, ?_⟩
    exact div_lt_div_of_pos_left htxQ hD1 (by linarith)
  · rw [if_neg hb] at href
    have hb' : d.nTransactionsLastCheckpoint < p.nChainTx := not_le.mp hb
    have hbQ : (d.nTransactionsLastCheckpoint : ℚ) < (p.nChainTx : ℚ) := by
      exact_mod_cast hb'
    have hE1 := expensiveAfter_nonneg now1 p.nTime d.fTransactionsPerDay href (le_of_lt hrate)
    have hE12 := expensiveAfter_strictMono now1 now2 p.nTime d.fTransactionsPerDay hlt hrate
    have hW : (0 : ℚ) < (d.nTransactionsLastCheckpoint : ℚ) +
        ((p.nChainTx : ℚ) - (d.nTransactionsLastCheckpoint : ℚ)) * 5 := by linarith
    have hD1 : (0 : ℚ) < (d.nTransactionsLastCheckpoint : ℚ) +
        ((p.nChainTx : ℚ) - (d.nTransactionsLastCheckpoint : ℚ)) * 5 +
        ((now1 - p.nTime : Int) : ℚ) / 86400 * d.fTransactionsPerDay * 5 := by linarith
    have hD2 : (0 : ℚ) < (d.nTransactionsLastCheckpoint : ℚ) +
        ((p.nChainTx : ℚ) - (d.nTransactionsLastCheckpoint : ℚ)) * 5 +
        ((now2 - p.nTime : Int) : ℚ) / 86400 * d.fTransactionsPerDay * 5 := by linarith
    rw [GuessVerificationProgress_past d now1 p hb', fdiv_of_ne_zero _ _ (ne_of_gt hD1),
      GuessVerificationProgress_past d now2 p hb', fdiv_of_ne_zero _ _ (ne_of_gt hD2)]
    refine ⟨_, _, rfl, rfl, ?_⟩
    exact div_lt_div_of_pos_left hW hD1 (by linarith)

theorem GuessVerificationProgress_decreases_with_time_witness :
    ∃ x y : ℚ, GuessVerificationProgress data 1489317707 (some ⟨20000, 1489000000⟩) = some x ∧
      GuessVerificationProgress data 1489404107 (some ⟨20000, 1489000000⟩) = some y ∧
      y < x :=
  GuessVerificationProgress_decreases_with_time data ⟨20000, 1489000000⟩ 1489317707
    1489404107 (by decide) (by norm_num [data]) (by decide) (by decide)

/-! ## The compiled-in checkpoint data -/

/-- C15: the compiled-in table is non-empty, its heights are strictly
increasing, no height occurs twice and its first entry is at height 0; with
enforcement enabled `GetTotalBlocksEstimate` therefore has a value on it. -/
theorem mapCheckpoints_invariant :
    mapCheckpoints.entries ≠ [] ∧
      (mapCheckpoints.entries.map Prod.fst).Pairwise (fun a b => a < b) ∧
      (mapCheckpoints.entries.map Prod.fst).Nodup ∧
      mapCheckpoints.entries.head?.map Prod.fst = some 0 ∧
      data.mapCheckpoints = mapCheckpoints ∧
      GetTotalBlocksEstimate true data ≠ none := by
  refine ⟨?_, ?_, ?_, ?_, rfl, ?_⟩
  · simp [mapCheckpoints]
  · simp [mapCheckpoints]
  · simp [mapCheckpoints]
  · simp [mapCheckpoints]
  · simp [GetTotalBlocksEstimate, StdMap.rbegin, data, mapCheckpoints]

/-- C16: with the compiled-in data (`lastCheckpointTxCount = 23062`,
`txPerDay = 576`), for a node with `txCount ≥ 0` and a clock value `now` with
`lastCheckpointTime ≤ now` and `node.time ≤ now`, the divisor
`fWorkBefore + fWorkAfter` of the branch taken is strictly positive, so the
estimator has a value. -/
theorem GuessVerificationProgress_divisor_pos (nNow : Int) (p : CBlockIndex)
    (_htx : 0 ≤ p.nChainTx) (hcp : data.nTimeLastCheckpoint ≤ nNow)
    (hnode : p.nTime ≤ nNow) :
    data.nTransactionsLastCheckpoint = 23062 ∧ data.fTransactionsPerDay = 576 ∧
      0 < (if p.nChainTx ≤ data.nTransactionsLastCheckpoint
            then workUpToCheckpoint data nNow p else workPastCheckpoint data nNow p).1 +
          (if p.nChainTx ≤ data.nTransactionsLastCheckpoint
            then workUpToCheckpoint data nNow p else workPastCheckpoint data nNow p).2 ∧
      GuessVerificationProgress data nNow (some p) ≠ none := by
  have hrate : (0 : ℚ) ≤ data.fTransactionsPerDay := by norm_num [data]
  have hlast : ((data.nTransactionsLastCheckpoint : Int) : ℚ) = 23062 := by
    norm_num [data]
  have hpos : 0 < (if p.nChainTx ≤ data.nTransactionsLastCheckpoint
        then workUpToCheckpoint data nNow p else workPastCheckpoint data nNow p).1 +
      (if p.nChainTx ≤ data.nTransactionsLastCheckpoint
        then workUpToCheckpoint data nNow p else workPastCheckpoint data nNow p).2 := by
    by_cases hb : p.nChainTx ≤ data.nTransactionsLastCheckpoint
    · have hE := expensiveAfter_nonneg nNow data.nTimeLastCheckpoint
        data.fTransactionsPerDay hcp hrate
      simp only [if_pos hb, workUpToCheckpoint, fSigcheckVerificationFactor, Int.cast_sub]
      rw [Int.cast_sub] at hE
      linarith
    · have hbQ : (data.nTransactionsLastCheckpoint : ℚ) < (p.nChainTx : ℚ) := by
        exact_mod_cast not_le.mp hb
      have hE := expensiveAfter_nonneg nNow p.nTime data.fTransactionsPerDay hnode hrate
      simp only [if_neg hb, workPastCheckpoint, fSigcheckVerificationFactor, Int.cast_sub]
      rw [Int.cast_sub] at hE
      linarith
  refine ⟨rfl, rfl, hpos, ?_⟩
  simp only [GuessVerificationProgress, fdiv, if_neg (ne_of_gt hpos)]
  exact Option.some_ne_none _

theorem GuessVerificationProgress_divisor_pos_witness :
    data.nTransactionsLastCheckpoint = 23062 ∧ data.fTransactionsPerDay = 576 ∧
      0 < (if (⟨0, 1489231307⟩ : CBlockIndex).nChainTx ≤ data.nTransactionsLastCheckpoint
            then workUpToCheckpoint data 1489231307 ⟨0, 1489231307⟩
            else workPastCheckpoint data 1489231307 ⟨0, 1489231307⟩).1 +
          (if (⟨0, 1489231307⟩ : CBlockIndex).nChainTx ≤ data.nTransactionsLastCheckpoint
            then workUpToCheckpoint data 1489231307 ⟨0, 1489231307⟩
            else workPastCheckpoint data 1489231307 ⟨0, 1489231307⟩).2 ∧
      GuessVerificationProgress data 1489231307 (some ⟨0, 1489231307⟩) ≠ none :=
  GuessVerificationProgress_divisor_pos 1489231307 ⟨0, 1489231307⟩
    (by decide) (by decide) (by decide)

/-- C17: the compiled-in table holds the genesis entry at height 0 and no
other, so `GetTotalBlocksEstimate` is 0 for either value of the enforcement
flag, and `CheckBlock(h, x)` is false exactly when enforcement is enabled,
`h = 0` and `x` is not the genesis hash. -/
theorem compiled_table_single_checkpoint :
    mapCheckpoints.entries =
        [(0, 0x563ac70cc2642286ad8463559011621fc4debe7ab2525900f74d079fc73cb5f2)] ∧
      data.mapCheckpoints = mapCheckpoints ∧
      (∀ fCheckpoints : Bool, GetTotalBlocksEstimate fCheckpoints data = some 0) ∧
      ∀ (fCheckpoints : Bool) (h : Int) (x : uint256),
        CheckBlock fCheckpoints data h x = false ↔
          (fCheckpoints = true ∧ h = 0 ∧
            x ≠ 0x563ac70cc2642286ad8463559011621fc4debe7ab2525900f74d079fc73cb5f2) := by
  refine ⟨rfl, rfl, ?_, ?_⟩
  · intro fCheckpoints
    cases fCheckpoints <;>
      simp [GetTotalBlocksEstimate, StdMap.rbegin, data, mapCheckpoints]
  · intro fCheckpoints h x
    cases fCheckpoints
    · simp [CheckBlock]
    · by_cases h0 : h = 0
      · subst h0
        simp [CheckBlock, StdMap.find, data, mapCheckpoints]
      · have hne : ¬ (0 : Int) = h := fun e => h0 e.symm
        simp [CheckBlock, StdMap.find, data, mapCheckpoints, h0, hne]

end Checkpoints
